import Mathlib

/-!
Verification of the attribute-validation framework in `media/utils/validators.py`
and the declarative metadata binder in `media/modules/media.py`.

Python runtime values are modelled by `PyVal`; the `datetime` type is modelled
by an integer ordinal (only its linear order matters to the validators).
Each `raise` site of the source is a distinct constructor of `VErr`.
`datetime.strptime` is an external library call; every definition that needs it
takes an explicit `strptime : String → String → Option Int` argument
(`none` models the `ValueError` that `strptime` raises on a non-matching format).
-/

/-- Python runtime values flowing through the validators. -/
inductive PyVal where
  | none
  | bool (b : Bool)
  | int (n : Int)
  | str (s : String)
  | datetime (t : Int)
  deriving Repr, DecidableEq

/-- The Python runtime types the validators test with `isinstance`. -/
inductive PyType where
  | noneType
  | boolT
  | intT
  | strT
  | datetimeT
  deriving Repr, DecidableEq

def PyVal.typeOf : PyVal → PyType
  | .none => .noneType
  | .bool _ => .boolT
  | .int _ => .intT
  | .str _ => .strT
  | .datetime _ => .datetimeT

/-- Python's subclass relation on the modelled types: `bool` is a subclass of
`int` (so `isinstance(True, int)` is `True`); otherwise only reflexivity. -/
def PyType.isSubclassOf : PyType → PyType → Bool
  | .boolT, .intT => true
  | t, u => t == u

/-- `isinstance(value, desired_types)` over the modelled types. -/
def isInstanceOf (v : PyVal) (desired : List PyType) : Bool :=
  desired.any (fun t => v.typeOf.isSubclassOf t)

/-- One constructor per `raise` site of the source.  `belowLower`/`aboveUpper`
are the two `ValueError`s of `validate_bounds`; `noFormats` is the
`TypeError` raised when a date string arrives with `formats=None`;
`callArityTypeError` is the `TypeError` Python raises for a call whose
positional-argument count does not match the callee's parameter count
(both counts include `self`). -/
inductive VErr where
  | missingValue (name : String)
  | typeError (name : String) (desired : List PyType) (actual : PyType)
  | belowLower (name : String) (lower value : Int)
  | aboveUpper (name : String) (upper value : Int)
  | invalidCharacter (name : String) (c : Char)
  | noFormats (name : String)
  | formatError (date : String) (formats : List String)
  | configError (lo hi : Int)
  | callArityTypeError (takes given : Nat)
  deriving Repr, DecidableEq

/-- `BaseValidator.validate_exists`: reject `None`. -/
def validate_exists (name : String) (value : PyVal) : Except VErr Unit :=
  if value = PyVal.none then Except.error (VErr.missingValue name)
  else Except.ok ()

/-- `BaseValidator.validate_type`: `isinstance` check against the desired types. -/
def validate_type (name : String) (value : PyVal) (desired : List PyType) :
    Except VErr Unit :=
  if isInstanceOf value desired then Except.ok ()
  else Except.error (VErr.typeError name desired value.typeOf)

/-- Second guard of `BaseValidator.validate_bounds`:
`if upper is not None and value > upper: raise ValueError(...)`. -/
def validate_upper (name : String) (value : Int) (upper : Option Int) :
    Except VErr Unit :=
  match upper with
  | some hi =>
      if value > hi then Except.error (VErr.aboveUpper name hi value)
      else Except.ok ()
  | none => Except.ok ()

/-- `BaseValidator.validate_bounds`: lower guard, then upper guard.
All bounded comparisons of the source (ints, string lengths, datetimes)
are over linearly ordered values, modelled uniformly by `Int`. -/
def validate_bounds (name : String) (value : Int) (lower upper : Option Int) :
    Except VErr Unit :=
  match lower with
  | some lo =>
      if value < lo then Except.error (VErr.belowLower name lo value)
      else validate_upper name value upper
  | none => validate_upper name value upper

/-- `BaseValidator.validate`: existence check, then return the value. -/
def BaseValidator.validate (name : String) (value : PyVal) : Except VErr PyVal := do
  validate_exists name value
  pure value

/-- Constraint state of a `StringValidator` after construction.
The source annotates `min_length:int=0` and `max_length:int=None`;
`valid_characters` is any `Sequence` of characters, modelled as `List Char`. -/
structure StringValidator where
  min_length : Int
  max_length : Option Int
  valid_characters : Option (List Char)
  deriving Repr, DecidableEq

/-- `StringValidator.__init__`: the parameter type checks are trivially
satisfied by the typed parameters; the self-consistency guard is
`if max_length is not None and min_length > max_length: raise ValueError`. -/
def StringValidator.make (min_length : Int) (max_length : Option Int)
    (valid_characters : Option (List Char)) : Except VErr StringValidator :=
  match max_length with
  | some mx =>
      if min_length > mx then Except.error (VErr.configError min_length mx)
      else Except.ok ⟨min_length, max_length, valid_characters⟩
  | none => Except.ok ⟨min_length, max_length, valid_characters⟩

/-- The loop body of `StringValidator.validate_chars`: scan the characters in
order and raise on the first one not contained in the allowed sequence. -/
def validate_chars_list (name : String) : List Char → List Char → Except VErr Unit
  | [], _ => Except.ok ()
  | c :: rest, valid =>
      if c ∈ valid then validate_chars_list name rest valid
      else Except.error (VErr.invalidCharacter name c)

/-- `StringValidator.validate_chars`: no-op when `valid_chars is None`. -/
def validate_chars (name : String) (value : String) (valid_chars : Option (List Char)) :
    Except VErr Unit :=
  match valid_chars with
  | none => Except.ok ()
  | some valid => validate_chars_list name value.toList valid

/-- `StringValidator.validate`: existence, type (`str` only), length bounds
(under the name `len(<name>)`), then character set.  The wildcard branch is
unreachable: `validate_type` admits only string values here. -/
def StringValidator.validate (v : StringValidator) (name : String) (value : PyVal) :
    Except VErr PyVal := do
  let value ← BaseValidator.validate name value
  validate_type name value [PyType.strT]
  match value with
  | .str s =>
      do
        validate_bounds ("len(" ++ name ++ ")") (s.length : Int)
          (some v.min_length) v.max_length
        validate_chars name s v.valid_characters
        pure (PyVal.str s)
  | other => pure other

/-- Constraint state of an `IntValidator` after construction. -/
structure IntValidator where
  min_value : Option Int
  max_value : Option Int
  deriving Repr, DecidableEq

/-- `IntValidator.__init__`: self-consistency guard
`if min_value is not None and max_value is not None and min_value > max_value`. -/
def IntValidator.make (min_value max_value : Option Int) : Except VErr IntValidator :=
  match min_value, max_value with
  | some lo, some hi =>
      if lo > hi then Except.error (VErr.configError lo hi)
      else Except.ok ⟨min_value, max_value⟩
  | _, _ => Except.ok ⟨min_value, max_value⟩

/-- `IntValidator.validate`: existence, `isinstance(value, int)` (which a
Python `bool` also satisfies, comparing as 1/0 in the bounds check), bounds.
The wildcard branch is unreachable after the type check. -/
def IntValidator.validate (v : IntValidator) (name : String) (value : PyVal) :
    Except VErr PyVal := do
  let value ← BaseValidator.validate name value
  validate_type name value [PyType.intT]
  match value with
  | .int n =>
      do
        validate_bounds name n v.min_value v.max_value
        pure (PyVal.int n)
  | .bool b =>
      do
        validate_bounds name (if b then 1 else 0) v.min_value v.max_value
        pure (PyVal.bool b)
  | other => pure other

/-- Constraint state of a `DateValidator` after construction; datetimes are
integer ordinals. -/
structure DateValidator where
  formats : Option (List String)
  earliest : Option Int
  latest : Option Int
  deriving Repr, DecidableEq

/-- `DateValidator.__init__`: the per-format and per-bound type checks are
trivially satisfied by the typed parameters; the self-consistency guard is
`if earliest is not None and latest is not None and earliest > latest`. -/
def DateValidator.make (formats : Option (List String)) (earliest latest : Option Int) :
    Except VErr DateValidator :=
  match earliest, latest with
  | some e, some l =>
      if e > l then Except.error (VErr.configError e l)
      else Except.ok ⟨formats, earliest, latest⟩
  | _, _ => Except.ok ⟨formats, earliest, latest⟩

/-- `DateValidator.str_to_datetime`: try `strptime` with each format in the
declared order, return the first success, raise listing every format if none
parses. -/
def str_to_datetime (strptime : String → String → Option Int) (date : String) :
    List String → Except VErr Int
  | [] => Except.error (VErr.formatError date [])
  | fmt :: rest =>
      match strptime date fmt with
      | some d => Except.ok d
      | none =>
          match str_to_datetime strptime date rest with
          | Except.ok d => Except.ok d
          | Except.error _ => Except.error (VErr.formatError date (fmt :: rest))

/-- `DateValidator.validate`: existence, type (`str` or `datetime`); a string
needs configured formats and is parsed by `str_to_datetime`; the resolved
datetime is bounds-checked.  The wildcard branch is unreachable after the
type check. -/
def DateValidator.validate (strptime : String → String → Option Int)
    (v : DateValidator) (name : String) (value : PyVal) : Except VErr PyVal := do
  let value ← BaseValidator.validate name value
  validate_type name value [PyType.strT, PyType.datetimeT]
  match value with
  | .str s =>
      do
        let fmts ← match v.formats with
          | none => Except.error (VErr.noFormats name)
          | some fmts => pure fmts
        let d ← str_to_datetime strptime s fmts
        validate_bounds name d v.earliest v.latest
        pure (PyVal.datetime d)
  | .datetime d =>
      do
        validate_bounds name d v.earliest v.latest
        pure (PyVal.datetime d)
  | other => pure other

/-- A validator instance of any of the four kinds of the hierarchy. -/
inductive Validator where
  | base : Validator
  | string : StringValidator → Validator
  | intv : IntValidator → Validator
  | date : DateValidator → Validator
  deriving Repr, DecidableEq

/-- Dynamic dispatch of `validate` over the hierarchy. -/
def Validator.validate (strptime : String → String → Option Int) :
    Validator → String → PyVal → Except VErr PyVal
  | .base, name, value => BaseValidator.validate name value
  | .string v, name, value => v.validate name value
  | .intv v, name, value => v.validate name value
  | .date v, name, value => DateValidator.validate strptime v name value

/-- An object's `__dict__`: per-instance field storage. -/
structure PyObject where
  dict : List (String × PyVal)
  deriving Repr, DecidableEq

/-- `instance.__dict__[key] = value`: overwrite the key if present, else append. -/
def dictInsert : List (String × PyVal) → String → PyVal → List (String × PyVal)
  | [], k, v => [(k, v)]
  | (k', v') :: rest, k, v =>
      if k' = k then (k, v) :: rest else (k', v') :: dictInsert rest k v

/-- `BaseValidator.__get__`: `instance.__dict__.get(prop_name)` — the stored
value, or Python `None` when the field was never assigned.  No validation. -/
def BaseValidator.get (inst : PyObject) (prop_name : String) : PyVal :=
  match inst.dict.lookup prop_name with
  | some v => v
  | none => PyVal.none

/-- `BaseValidator.__set__`: validate, then store the validated result under
the bound name.  An error propagates before any write happens. -/
def Validator.set (strptime : String → String → Option Int) (kind : Validator)
    (prop_name : String) (inst : PyObject) (value : PyVal) : Except VErr PyObject :=
  match Validator.validate strptime kind prop_name value with
  | Except.ok v => Except.ok ⟨dictInsert inst.dict prop_name v⟩
  | Except.error e => Except.error e

/-- The instance a caller observes after an assignment: the updated object on
success, the untouched object when the raised error aborted `__set__` before
its write. -/
def Validator.trySet (strptime : String → String → Option Int) (kind : Validator)
    (prop_name : String) (inst : PyObject) (value : PyVal) : PyObject :=
  match Validator.set strptime kind prop_name inst value with
  | Except.ok inst' => inst'
  | Except.error _ => inst

/-- The canonical members of the `Metadata` enum (aliases resolve to these). -/
inductive Metadata where
  | file_name
  | extension
  | duration
  | date_created
  deriving Repr, DecidableEq

/-- `_value_` of each canonical member: the attribute name storing the field. -/
def Metadata.value : Metadata → String
  | .file_name => "file_name"
  | .extension => "extension"
  | .duration => "duration"
  | .date_created => "date_created"

/-- `str(member)`, the name `read_file_metadata` passes to `validate_exists`. -/
def Metadata.pyStr : Metadata → String
  | .file_name => "Metadata.file_name"
  | .extension => "Metadata.extension"
  | .duration => "Metadata.duration"
  | .date_created => "Metadata.date_created"

/-- The character sequence shared by the `file_name` and `extension` entries. -/
def fileNameChars : List Char :=
  "-_.() abcdefghijklmnopqrstuvwxyzABCDEFGHIJKLMNOPQRSTUVWXYZ0123456789".toList

/-- The date formats of the `date_created` entry. -/
def dateCreatedFormats : List String :=
  ["%H:%M:%S %d/%m/%Y", "%Z %Y-%m-%d %H:%M:%S.%f"]

/-- `prop.descriptor(**prop.kwargs)`: instantiate the registry entry's
validator with its registered parameters, as `MediaType.__new__` does. -/
def Metadata.makeDescriptor : Metadata → Except VErr Validator
  | .file_name =>
      (StringValidator.make 1 (some 99) (some fileNameChars)).map Validator.string
  | .extension =>
      (StringValidator.make 1 (some 5) (some fileNameChars)).map Validator.string
  | .duration =>
      (IntValidator.make (some 1) (some 360000000)).map Validator.intv
  | .date_created =>
      (DateValidator.make (some dateCreatedFormats) none none).map Validator.date

/-- The descriptor `MediaType` installs for each canonical member (the
registered parameters are self-consistent, so construction succeeds;
see `makeDescriptor_ok`). -/
def Metadata.installed : Metadata → Validator
  | .file_name => Validator.string ⟨1, some 99, some fileNameChars⟩
  | .extension => Validator.string ⟨1, some 5, some fileNameChars⟩
  | .duration => Validator.intv ⟨some 1, some 360000000⟩
  | .date_created => Validator.date ⟨some dateCreatedFormats, none, none⟩

/-- `Metadata[name]`: enum lookup by member name, canonical members and
aliases alike; `none` models the `KeyError` for unknown names. -/
def metadataLookup : String → Option Metadata
  | "file_name" => some .file_name
  | "general_file_name" => some .file_name
  | "extension" => some .extension
  | "general_file_extension" => some .extension
  | "duration" => some .duration
  | "general_duration" => some .duration
  | "date_created" => some .date_created
  | "general_file_creation_date" => some .date_created
  | _ => none

/-- Python's `str.lower()` (an external built-in), as applied to
`track.track_type`: lower-case every character. -/
def pyLower (s : String) : String := ⟨s.data.map Char.toLower⟩

/-- One property of one parsed track, as handed over by the external
`MediaInfo.parse` collaborator. -/
structure MediaEntry where
  track_type : String
  property : String
  raw : PyVal
  deriving Repr, DecidableEq

/-- The loop body of `Media.read_file_metadata`: build
`track.track_type.lower() + '_' + property`, look it up in the enum
(`KeyError` is silently passed), skip members outside the class's declared
`metadata`, and otherwise assign through the installed descriptor. -/
def processEntry (strptime : String → String → Option Int)
    (declared : List Metadata) (inst : PyObject) (e : MediaEntry) :
    Except VErr PyObject :=
  match metadataLookup (pyLower e.track_type ++ "_" ++ e.property) with
  | none => Except.ok inst
  | some m =>
      if m ∈ declared then
        Validator.set strptime m.installed m.value inst e.raw
      else Except.ok inst

/-- The entry loop of `Media.read_file_metadata`, in source order. -/
def processEntries (strptime : String → String → Option Int)
    (declared : List Metadata) : List MediaEntry → PyObject → Except VErr PyObject
  | [], inst => Except.ok inst
  | e :: rest, inst => do
      let inst ← processEntry strptime declared inst e
      processEntries strptime declared rest inst

/-- The completeness loop of `Media.read_file_metadata`:
`validate_exists(prop, getattr(self, prop.value))` for every declared member. -/
def checkComplete : List Metadata → PyObject → Except VErr Unit
  | [], _ => Except.ok ()
  | m :: rest, inst => do
      validate_exists m.pyStr (BaseValidator.get inst m.value)
      checkComplete rest inst

/-- `Media.read_file_metadata`: process every parsed entry, then
existence-check every declared field. -/
def Media.read_file_metadata (strptime : String → String → Option Int)
    (declared : List Metadata) (entries : List MediaEntry) (inst : PyObject) :
    Except VErr PyObject := do
  let inst ← processEntries strptime declared entries inst
  checkComplete declared inst
  pure inst

/-- Parameter count of `def read_file_metadata(self) -> None` (just `self`). -/
def read_file_metadata_paramCount : Nat := 1

/-- Positional arguments of the call `self.read_file_metadata(file)` in
`Media.__init__` (`self` plus `file`). -/
def init_read_call_argCount : Nat := 2

/-- `Media.__init__`: nothing happens without a `metadata` attribute
(`metadata = none`); with one, `self._file = file` is stored and
`self.read_file_metadata(file)` is called — a call Python rejects with a
`TypeError` when its argument count differs from the callee's parameter
count, before the method body runs. -/
def Media.init (strptime : String → String → Option Int)
    (metadata : Option (List Metadata)) (entries : List MediaEntry)
    (file : String) : Except VErr PyObject :=
  match metadata with
  | none => Except.ok ⟨[]⟩
  | some declared =>
      let inst : PyObject := ⟨[("_file", PyVal.str file)]⟩
      if read_file_metadata_paramCount = init_read_call_argCount then
        Media.read_file_metadata strptime declared entries inst
      else
        Except.error
          (VErr.callArityTypeError read_file_metadata_paramCount init_read_call_argCount)

/-- The first character of a string not contained in the allowed sequence,
in scan order. -/
def firstInvalid (s : String) (valid : List Char) : Option Char :=
  s.toList.find? (fun c => decide (c ∉ valid))

lemma lookup_dictInsert_self (d : List (String × PyVal)) (k : String) (v : PyVal) :
    (dictInsert d k v).lookup k = some v := by
  induction d with
  | nil => simp [dictInsert, List.lookup]
  | cons hd tl ih =>
    by_cases hk : hd.1 = k
    · simp [dictInsert, hk, List.lookup]
    · have hbeq : (k == hd.1) = false := beq_eq_false_iff_ne.mpr fun h => hk h.symm
      simp [dictInsert, hk, List.lookup, hbeq, ih]

lemma get_dictInsert (d : List (String × PyVal)) (k : String) (v : PyVal) :
    BaseValidator.get ⟨dictInsert d k v⟩ k = v := by
  simp [BaseValidator.get, lookup_dictInsert_self]

lemma baseValidate_of_ne (name : String) (value : PyVal) (h : value ≠ PyVal.none) :
    BaseValidator.validate name value = Except.ok value := by
  simp [BaseValidator.validate, validate_exists, h, Bind.bind, Except.bind, Pure.pure,
    Except.pure]

lemma stringValidate_str (v : StringValidator) (name : String) (s : String) :
    StringValidator.validate v name (PyVal.str s) = (do
      validate_bounds ("len(" ++ name ++ ")") (s.length : Int)
        (some v.min_length) v.max_length
      validate_chars name s v.valid_characters
      pure (PyVal.str s)) := by
  simp [StringValidator.validate, baseValidate_of_ne, validate_type, isInstanceOf,
    PyVal.typeOf, PyType.isSubclassOf, Bind.bind, Except.bind]

lemma intValidate_int (v : IntValidator) (name : String) (n : Int) :
    IntValidator.validate v name (PyVal.int n) = (do
      validate_bounds name n v.min_value v.max_value
      pure (PyVal.int n)) := by
  simp [IntValidator.validate, baseValidate_of_ne, validate_type, isInstanceOf,
    PyVal.typeOf, PyType.isSubclassOf, Bind.bind, Except.bind]

lemma intValidate_bool (v : IntValidator) (name : String) (b : Bool) :
    IntValidator.validate v name (PyVal.bool b) = (do
      validate_bounds name (if b then 1 else 0) v.min_value v.max_value
      pure (PyVal.bool b)) := by
  simp [IntValidator.validate, baseValidate_of_ne, validate_type, isInstanceOf,
    PyVal.typeOf, PyType.isSubclassOf, Bind.bind, Except.bind]

lemma dateValidate_str (p : String → String → Option Int) (v : DateValidator)
    (name s : String) (fmts : List String) (h : v.formats = some fmts) :
    DateValidator.validate p v name (PyVal.str s) = (do
      let d ← str_to_datetime p s fmts
      validate_bounds name d v.earliest v.latest
      pure (PyVal.datetime d)) := by
  simp [DateValidator.validate, baseValidate_of_ne, validate_type, isInstanceOf,
    PyVal.typeOf, PyType.isSubclassOf, Bind.bind, Except.bind, h, Pure.pure, Except.pure]

lemma dateValidate_datetime (p : String → String → Option Int) (v : DateValidator)
    (name : String) (d : Int) :
    DateValidator.validate p v name (PyVal.datetime d) = (do
      validate_bounds name d v.earliest v.latest
      pure (PyVal.datetime d)) := by
  simp [DateValidator.validate, baseValidate_of_ne, validate_type, isInstanceOf,
    PyVal.typeOf, PyType.isSubclassOf, Bind.bind, Except.bind]

lemma validate_bounds_ok_of_le (name : String) (x l h : Int)
    (hl : l ≤ x) (hh : x ≤ h) :
    validate_bounds name x (some l) (some h) = Except.ok () := by
  simp [validate_bounds, validate_upper, not_lt.mpr hl, not_lt.mpr hh]

lemma validate_bounds_low (name : String) (x l : Int) (u : Option Int) (hx : x < l) :
    validate_bounds name x (some l) u = Except.error (VErr.belowLower name l x) := by
  simp [validate_bounds, hx]

lemma validate_bounds_high (name : String) (x l h : Int) (hl : l ≤ x) (hx : h < x) :
    validate_bounds name x (some l) (some h)
      = Except.error (VErr.aboveUpper name h x) := by
  simp [validate_bounds, validate_upper, not_lt.mpr hl, hx]

lemma validate_bounds_none_low (name : String) (x h : Int) (hh : x ≤ h) :
    validate_bounds name x none (some h) = Except.ok () := by
  simp [validate_bounds, validate_upper, not_lt.mpr hh]

lemma validate_bounds_high_none (name : String) (x l : Int) (hl : l ≤ x) :
    validate_bounds name x (some l) none = Except.ok () := by
  simp [validate_bounds, validate_upper, not_lt.mpr hl]

lemma validate_bounds_ok_iff (name : String) (x l h : Int) :
    validate_bounds name x (some l) (some h) = Except.ok () ↔ l ≤ x ∧ x ≤ h := by
  by_cases hl : x < l
  · simp [validate_bounds_low name x l (some h) hl]
    intro h'
    omega
  · by_cases hh : h < x
    · simp [validate_bounds_high name x l h (not_lt.mp hl) hh]
      omega
    · simp [validate_bounds_ok_of_le name x l h (not_lt.mp hl) (not_lt.mp hh)]
      omega

lemma validate_chars_list_ok_iff (name : String) (cs valid : List Char) :
    validate_chars_list name cs valid = Except.ok () ↔ ∀ c ∈ cs, c ∈ valid := by
  induction cs with
  | nil => simp [validate_chars_list]
  | cons c rest ih =>
    by_cases hc : c ∈ valid
    · simp [validate_chars_list, hc, ih]
    · simp [validate_chars_list, hc]

lemma validate_chars_list_first (name : String) (cs valid : List Char) (c : Char)
    (h : cs.find? (fun x => decide (x ∉ valid)) = some c) :
    validate_chars_list name cs valid = Except.error (VErr.invalidCharacter name c) := by
  induction cs with
  | nil => simp [List.find?] at h
  | cons a rest ih =>
    by_cases ha : a ∈ valid
    · rw [List.find?_cons_of_neg _ (by simp [ha])] at h
      simp [validate_chars_list, ha, ih h]
    · rw [List.find?_cons_of_pos _ (by simp [ha])] at h
      cases h
      simp [validate_chars_list, ha]

lemma str_to_datetime_all_fail (p : String → String → Option Int) (s : String) :
    ∀ fmts : List String, (∀ f ∈ fmts, p s f = none) →
      str_to_datetime p s fmts = Except.error (VErr.formatError s fmts) := by
  intro fmts
  induction fmts with
  | nil => intro _; rfl
  | cons f rest ih =>
    intro h
    have hf : p s f = none := h f (by simp)
    have hrest := ih (fun g hg => h g (List.mem_cons_of_mem _ hg))
    simp [str_to_datetime, hf, hrest]

lemma set_of_validate_ok (p : String → String → Option Int) (k : Validator)
    (name : String) (inst : PyObject) (value v : PyVal)
    (h : Validator.validate p k name value = Except.ok v) :
    Validator.set p k name inst value = Except.ok ⟨dictInsert inst.dict name v⟩ := by
  simp [Validator.set, h]

lemma set_of_validate_error (p : String → String → Option Int) (k : Validator)
    (name : String) (inst : PyObject) (value : PyVal) (e : VErr)
    (h : Validator.validate p k name value = Except.error e) :
    Validator.set p k name inst value = Except.error e := by
  simp [Validator.set, h]

lemma validate_intv (p : String → String → Option Int) (mn mx : Option Int)
    (name : String) (n : Int) :
    Validator.validate p (Validator.intv ⟨mn, mx⟩) name (PyVal.int n)
      = (validate_bounds name n mn mx).map (fun _ => PyVal.int n) := by
  cases hb : validate_bounds name n mn mx with
  | ok u =>
      cases u
      simp [Validator.validate, intValidate_int, hb, Bind.bind, Except.bind,
        Pure.pure, Except.pure, Except.map]
  | error e =>
      simp [Validator.validate, intValidate_int, hb, Bind.bind, Except.bind,
        Except.map]

lemma validate_strv (p : String → String → Option Int) (mnl : Int)
    (mxl : Option Int) (S : List Char) (name s : String) :
    Validator.validate p (Validator.string ⟨mnl, mxl, some S⟩) name (PyVal.str s)
      = match validate_bounds ("len(" ++ name ++ ")") (s.length : Int) (some mnl) mxl with
        | Except.error e => Except.error e
        | Except.ok _ =>
            match validate_chars_list name s.toList S with
            | Except.error e => Except.error e
            | Except.ok _ => Except.ok (PyVal.str s) := by
  cases hb : validate_bounds ("len(" ++ name ++ ")") (s.length : Int) (some mnl) mxl with
  | ok u =>
      cases u
      cases hc : validate_chars_list name s.data S with
      | ok u2 =>
          cases u2
          simp [Validator.validate, stringValidate_str, hb, hc, validate_chars,
            Bind.bind, Except.bind, Pure.pure, Except.pure]
      | error e =>
          simp [Validator.validate, stringValidate_str, hb, hc, validate_chars,
            Bind.bind, Except.bind]
  | error e =>
      simp [Validator.validate, stringValidate_str, hb, validate_chars,
        Bind.bind, Except.bind]

lemma validate_date_str (p : String → String → Option Int) (fmts : List String)
    (eo lo : Option Int) (name s : String) (d : Int)
    (h : str_to_datetime p s fmts = Except.ok d) :
    Validator.validate p (Validator.date ⟨some fmts, eo, lo⟩) name (PyVal.str s)
      = (validate_bounds name d eo lo).map (fun _ => PyVal.datetime d) := by
  cases hb : validate_bounds name d eo lo with
  | ok u =>
      cases u
      simp [Validator.validate, dateValidate_str p ⟨some fmts, eo, lo⟩ name s fmts rfl,
        h, hb, Bind.bind, Except.bind, Pure.pure, Except.pure, Except.map]
  | error e =>
      simp [Validator.validate, dateValidate_str p ⟨some fmts, eo, lo⟩ name s fmts rfl,
        h, hb, Bind.bind, Except.bind, Except.map]

lemma validate_date_dt (p : String → String → Option Int) (fo : Option (List String))
    (eo lo : Option Int) (name : String) (d : Int) :
    Validator.validate p (Validator.date ⟨fo, eo, lo⟩) name (PyVal.datetime d)
      = (validate_bounds name d eo lo).map (fun _ => PyVal.datetime d) := by
  cases hb : validate_bounds name d eo lo with
  | ok u =>
      cases u
      simp [Validator.validate, dateValidate_datetime, hb, Bind.bind, Except.bind,
        Pure.pure, Except.pure, Except.map]
  | error e =>
      simp [Validator.validate, dateValidate_datetime, hb, Bind.bind, Except.bind,
        Except.map]

lemma checkComplete_ok (declared : List Metadata) (inst : PyObject)
    (h : ∀ m ∈ declared, BaseValidator.get inst m.value ≠ PyVal.none) :
    checkComplete declared inst = Except.ok () := by
  induction declared with
  | nil => rfl
  | cons m rest ih =>
      have hm : BaseValidator.get inst m.value ≠ PyVal.none := h m (by simp)
      have hrest := ih (fun m2 hm2 => h m2 (List.mem_cons_of_mem _ hm2))
      simp [checkComplete, validate_exists, hm, hrest, Bind.bind, Except.bind]

lemma checkComplete_first_missing (declared : List Metadata) (inst : PyObject)
    (m : Metadata)
    (h : declared.find? (fun m2 => decide (BaseValidator.get inst m2.value = PyVal.none))
          = some m) :
    checkComplete declared inst = Except.error (VErr.missingValue m.pyStr) := by
  induction declared with
  | nil => simp [List.find?] at h
  | cons m0 rest ih =>
      by_cases h0 : BaseValidator.get inst m0.value = PyVal.none
      · rw [List.find?_cons_of_pos _ (by simp [h0])] at h
        cases h
        simp [checkComplete, validate_exists, h0, Bind.bind, Except.bind]
      · rw [List.find?_cons_of_neg _ (by simp [h0])] at h
        simp [checkComplete, validate_exists, h0, Bind.bind, Except.bind, ih h]

/-- C1 counterexample: an integer-kind validator with bounds [0, 5] does NOT
reject the boolean `True` with the type error — the assignment succeeds and
stores the boolean, because `isinstance(True, int)` holds in Python. -/
theorem C1_counterexample :
    Validator.set (fun _ _ => none) (Validator.intv ⟨some 0, some 5⟩) "count"
      ⟨[]⟩ (PyVal.bool true) = Except.ok ⟨[("count", PyVal.bool true)]⟩ := rfl

/-- C1 (amended): for every integer-kind validator, a boolean raw value passes
the `isinstance`-based type check (`bool` is a subclass of `int`), is
bounds-checked as the integer 1 (`True`) or 0 (`False`), and — within bounds —
is stored unchanged; it is never rejected with the type error. -/
theorem C1_bool_accepted_by_int_kind (p : String → String → Option Int)
    (mn mx : Option Int) (name : String) (inst : PyObject) (b : Bool) :
    Validator.set p (Validator.intv ⟨mn, mx⟩) name inst (PyVal.bool b)
      = (validate_bounds name (if b then 1 else 0) mn mx).map
          (fun _ => PyObject.mk (dictInsert inst.dict name (PyVal.bool b))) := by
  cases hb : validate_bounds name (if b then 1 else 0) mn mx with
  | ok u =>
      cases u
      have hv : Validator.validate p (Validator.intv ⟨mn, mx⟩) name (PyVal.bool b)
          = Except.ok (PyVal.bool b) := by
        simp [Validator.validate, intValidate_bool, hb, Bind.bind, Except.bind,
          Pure.pure, Except.pure]
      simp [set_of_validate_ok p _ name inst _ _ hv, hb, Except.map]
  | error e =>
      have hv : Validator.validate p (Validator.intv ⟨mn, mx⟩) name (PyVal.bool b)
          = Except.error e := by
        simp [Validator.validate, intValidate_bool, hb, Bind.bind, Except.bind]
      simp [set_of_validate_error p _ name inst _ e hv, hb, Except.map]

/-- C2: for every bounded validator kind, construction with both bounds present
and min > max (lengths for strings, values for integers, dates for the date
kind) fails with the configuration error; any other typed parameter
combination constructs successfully. -/
theorem C2_construction_consistency :
    (∀ (a mx : Int) (vc : Option (List Char)), a > mx →
        StringValidator.make a (some mx) vc = Except.error (VErr.configError a mx))
    ∧ (∀ (a : Int) (mxl : Option Int) (vc : Option (List Char)),
        (∀ mx, mxl = some mx → a ≤ mx) →
        StringValidator.make a mxl vc = Except.ok ⟨a, mxl, vc⟩)
    ∧ (∀ l h : Int, l > h →
        IntValidator.make (some l) (some h) = Except.error (VErr.configError l h))
    ∧ (∀ mn mx : Option Int, (∀ l h, mn = some l → mx = some h → l ≤ h) →
        IntValidator.make mn mx = Except.ok ⟨mn, mx⟩)
    ∧ (∀ (fo : Option (List String)) (e l : Int), e > l →
        DateValidator.make fo (some e) (some l) = Except.error (VErr.configError e l))
    ∧ (∀ (fo : Option (List String)) (eo lo : Option Int),
        (∀ e l, eo = some e → lo = some l → e ≤ l) →
        DateValidator.make fo eo lo = Except.ok ⟨fo, eo, lo⟩) := by
  refine ⟨?_, ?_, ?_, ?_, ?_, ?_⟩
  · intro a mx vc h
    simp [StringValidator.make, h]
  · intro a mxl vc h
    cases mxl with
    | none => rfl
    | some mx => simp [StringValidator.make, not_lt.mpr (h mx rfl)]
  · intro l h hlt
    simp [IntValidator.make, hlt]
  · intro mn mx h
    cases mn with
    | none => cases mx <;> rfl
    | some l =>
        cases mx with
        | none => rfl
        | some hh => simp [IntValidator.make, not_lt.mpr (h l hh rfl rfl)]
  · intro fo e l hlt
    simp [DateValidator.make, hlt]
  · intro fo eo lo h
    cases eo with
    | none => cases lo <;> rfl
    | some e =>
        cases lo with
        | none => rfl
        | some l => simp [DateValidator.make, not_lt.mpr (h e l rfl rfl)]

/-- Witness for C2 at concrete parameters: each kind fails on min > max and
succeeds on consistent bounds. -/
theorem C2_witness :
    StringValidator.make 5 (some 3) none = Except.error (VErr.configError 5 3)
    ∧ StringValidator.make 1 (some 9) none = Except.ok ⟨1, some 9, none⟩
    ∧ IntValidator.make (some 7) (some 2) = Except.error (VErr.configError 7 2)
    ∧ IntValidator.make (some 1) (some 4) = Except.ok ⟨some 1, some 4⟩
    ∧ DateValidator.make none (some 9) (some 3) = Except.error (VErr.configError 9 3)
    ∧ DateValidator.make none (some 1) (some 2) = Except.ok ⟨none, some 1, some 2⟩ :=
  ⟨C2_construction_consistency.1 5 3 none (by decide),
   C2_construction_consistency.2.1 1 (some 9) none
     (by intro mx h; simp at h; omega),
   C2_construction_consistency.2.2.1 7 2 (by decide),
   C2_construction_consistency.2.2.2.1 (some 1) (some 4)
     (by intro l h h1 h2; simp at h1 h2; omega),
   C2_construction_consistency.2.2.2.2.1 none 9 3 (by decide),
   C2_construction_consistency.2.2.2.2.2 none (some 1) (some 2)
     (by intro e l h1 h2; simp at h1 h2; omega)⟩

/-- C3: for every validator kind, assigning `None` fails with the
missing-value error, uniformly and independently of every constraint
parameter — so before any kind-specific check can run. -/
theorem C3_null_always_missing (p : String → String → Option Int)
    (kind : Validator) (name : String) (inst : PyObject) :
    Validator.set p kind name inst PyVal.none
      = Except.error (VErr.missingValue name) := by
  cases kind <;> rfl

/-- C10: constructing a `Media` subclass that declares metadata always raises
the `TypeError` for the arity-mismatched call `self.read_file_metadata(file)`
(the method takes 1 positional argument, `self`, but 2 are given), for every
file and every parsed-entry list — so the population-and-completeness flow is
never reached through the constructor. -/
theorem C10_init_arity_type_error (p : String → String → Option Int)
    (declared : List Metadata) (entries : List MediaEntry) (file : String) :
    Media.init p (some declared) entries file
      = Except.error (VErr.callArityTypeError 1 2) := rfl

/-- C4: for an integer-kind validator with inclusive bounds [lo, hi], every
in-range assignment succeeds and a subsequent read returns the value
unchanged; lo - 1 fails with the lower range error and hi + 1 with the upper
range error; an absent bound disables only its own side. -/
theorem C4_int_bounds_inclusive (p : String → String → Option Int)
    (lo hi v : Int) (name : String) (inst : PyObject) (hlohi : lo ≤ hi) :
    (lo ≤ v → v ≤ hi →
      Validator.set p (Validator.intv ⟨some lo, some hi⟩) name inst (PyVal.int v)
          = Except.ok ⟨dictInsert inst.dict name (PyVal.int v)⟩
        ∧ BaseValidator.get ⟨dictInsert inst.dict name (PyVal.int v)⟩ name
          = PyVal.int v)
    ∧ Validator.set p (Validator.intv ⟨some lo, some hi⟩) name inst
        (PyVal.int (lo - 1)) = Except.error (VErr.belowLower name lo (lo - 1))
    ∧ Validator.set p (Validator.intv ⟨some lo, some hi⟩) name inst
        (PyVal.int (hi + 1)) = Except.error (VErr.aboveUpper name hi (hi + 1))
    ∧ (v ≤ hi →
        Validator.set p (Validator.intv ⟨none, some hi⟩) name inst (PyVal.int v)
          = Except.ok ⟨dictInsert inst.dict name (PyVal.int v)⟩)
    ∧ (lo ≤ v →
        Validator.set p (Validator.intv ⟨some lo, none⟩) name inst (PyVal.int v)
          = Except.ok ⟨dictInsert inst.dict name (PyVal.int v)⟩) := by
  refine ⟨?_, ?_, ?_, ?_, ?_⟩
  · intro h1 h2
    have hv : Validator.validate p (Validator.intv ⟨some lo, some hi⟩) name
        (PyVal.int v) = Except.ok (PyVal.int v) := by
      rw [validate_intv, validate_bounds_ok_of_le name v lo hi h1 h2]
      rfl
    exact ⟨set_of_validate_ok p _ name inst _ _ hv, get_dictInsert _ _ _⟩
  · have hv : Validator.validate p (Validator.intv ⟨some lo, some hi⟩) name
        (PyVal.int (lo - 1)) = Except.error (VErr.belowLower name lo (lo - 1)) := by
      rw [validate_intv, validate_bounds_low name (lo - 1) lo (some hi) (by omega)]
      rfl
    exact set_of_validate_error p _ name inst _ _ hv
  · have hv : Validator.validate p (Validator.intv ⟨some lo, some hi⟩) name
        (PyVal.int (hi + 1)) = Except.error (VErr.aboveUpper name hi (hi + 1)) := by
      rw [validate_intv,
        validate_bounds_high name (hi + 1) lo hi (by omega) (by omega)]
      rfl
    exact set_of_validate_error p _ name inst _ _ hv
  · intro h2
    have hv : Validator.validate p (Validator.intv ⟨none, some hi⟩) name
        (PyVal.int v) = Except.ok (PyVal.int v) := by
      rw [validate_intv, validate_bounds_none_low name v hi h2]
      rfl
    exact set_of_validate_ok p _ name inst _ _ hv
  · intro h1
    have hv : Validator.validate p (Validator.intv ⟨some lo, none⟩) name
        (PyVal.int v) = Except.ok (PyVal.int v) := by
      rw [validate_intv, validate_bounds_high_none name v lo h1]
      rfl
    exact set_of_validate_ok p _ name inst _ _ hv

/-- Witness for C4 with bounds [1, 5]: 3 is accepted and read back, 6 (= hi+1)
is rejected with the upper range error. -/
theorem C4_witness :
    (1 : Int) ≤ 5
    ∧ Validator.set (fun _ _ => none) (Validator.intv ⟨some 1, some 5⟩) "duration"
        ⟨[]⟩ (PyVal.int 3) = Except.ok ⟨[("duration", PyVal.int 3)]⟩
    ∧ Validator.set (fun _ _ => none) (Validator.intv ⟨some 1, some 5⟩) "duration"
        ⟨[]⟩ (PyVal.int 6) = Except.error (VErr.aboveUpper "duration" 5 6) :=
  ⟨by decide,
   ((C4_int_bounds_inclusive (fun _ _ => none) 1 5 3 "duration" ⟨[]⟩
      (by decide)).1 (by decide) (by decide)).1,
   (C4_int_bounds_inclusive (fun _ _ => none) 1 5 3 "duration" ⟨[]⟩
      (by decide)).2.2.1⟩

/-- C5: for a string-kind validator with length bounds [lo, hi] and allowed
character set S, assignment of a string succeeds iff the length is within the
inclusive bounds and every character is allowed; a length violation fails
with the length error (named `len(<field>)`) without looking at the
characters, and a character-set violation fails with the invalid-character
error naming the first offending character in scan order. -/
theorem C5_string_length_charset (p : String → String → Option Int)
    (mnl mx : Int) (S : List Char) (name s : String) (inst : PyObject) :
    ((∃ inst2, Validator.set p (Validator.string ⟨mnl, some mx, some S⟩) name inst
        (PyVal.str s) = Except.ok inst2)
      ↔ (mnl ≤ (s.length : Int) ∧ (s.length : Int) ≤ mx ∧ ∀ c ∈ s.toList, c ∈ S))
    ∧ ((s.length : Int) < mnl →
        Validator.set p (Validator.string ⟨mnl, some mx, some S⟩) name inst
          (PyVal.str s)
        = Except.error (VErr.belowLower ("len(" ++ name ++ ")") mnl s.length))
    ∧ (mnl ≤ (s.length : Int) → mx < (s.length : Int) →
        Validator.set p (Validator.string ⟨mnl, some mx, some S⟩) name inst
          (PyVal.str s)
        = Except.error (VErr.aboveUpper ("len(" ++ name ++ ")") mx s.length))
    ∧ (∀ c : Char, mnl ≤ (s.length : Int) → (s.length : Int) ≤ mx →
        firstInvalid s S = some c →
        Validator.set p (Validator.string ⟨mnl, some mx, some S⟩) name inst
          (PyVal.str s)
        = Except.error (VErr.invalidCharacter name c)) := by
  refine ⟨?_, ?_, ?_, ?_⟩
  · constructor
    · rintro ⟨inst2, hset⟩
      cases hval : Validator.validate p (Validator.string ⟨mnl, some mx, some S⟩)
          name (PyVal.str s) with
      | error e =>
          rw [set_of_validate_error p _ name inst _ e hval] at hset
          exact absurd hset (by simp)
      | ok v =>
          rw [validate_strv] at hval
          cases hb : validate_bounds ("len(" ++ name ++ ")") (s.length : Int)
              (some mnl) (some mx) with
          | error e => rw [hb] at hval; exact absurd hval (by simp)
          | ok u =>
              cases u
              rw [hb] at hval
              cases hc : validate_chars_list name s.toList S with
              | error e =>
                  rw [hc] at hval
                  simp at hval
              | ok u2 =>
                  have hlen := (validate_bounds_ok_iff _ _ _ _).mp hb
                  have hchars := (validate_chars_list_ok_iff name s.toList S).mp hc
                  exact ⟨hlen.1, hlen.2, hchars⟩
    · rintro ⟨h1, h2, h3⟩
      have hval : Validator.validate p (Validator.string ⟨mnl, some mx, some S⟩)
          name (PyVal.str s) = Except.ok (PyVal.str s) := by
        rw [validate_strv, validate_bounds_ok_of_le _ _ _ _ h1 h2,
          (validate_chars_list_ok_iff name s.toList S).mpr h3]
      exact ⟨_, set_of_validate_ok p _ name inst _ _ hval⟩
  · intro hlen
    have hval : Validator.validate p (Validator.string ⟨mnl, some mx, some S⟩)
        name (PyVal.str s)
        = Except.error (VErr.belowLower ("len(" ++ name ++ ")") mnl s.length) := by
      rw [validate_strv, validate_bounds_low _ _ _ _ hlen]
    exact set_of_validate_error p _ name inst _ _ hval
  · intro h1 h2
    have hval : Validator.validate p (Validator.string ⟨mnl, some mx, some S⟩)
        name (PyVal.str s)
        = Except.error (VErr.aboveUpper ("len(" ++ name ++ ")") mx s.length) := by
      rw [validate_strv, validate_bounds_high _ _ _ _ h1 h2]
    exact set_of_validate_error p _ name inst _ _ hval
  · intro c h1 h2 hfirst
    have hval : Validator.validate p (Validator.string ⟨mnl, some mx, some S⟩)
        name (PyVal.str s)
        = Except.error (VErr.invalidCharacter name c) := by
      rw [validate_strv, validate_bounds_ok_of_le _ _ _ _ h1 h2,
        validate_chars_list_first name s.toList S c hfirst]
    exact set_of_validate_error p _ name inst _ _ hval

/-- Witness for C5 with bounds [1, 3] and allowed characters {a, b}: the empty
string fails the lower length bound, "abab" the upper one, and "aXb" fails on
its first disallowed character 'X'. -/
theorem C5_witness :
    Validator.set (fun _ _ => none) (Validator.string ⟨1, some 3, some ['a', 'b']⟩)
        "name" ⟨[]⟩ (PyVal.str "")
      = Except.error (VErr.belowLower "len(name)" 1 0)
    ∧ Validator.set (fun _ _ => none) (Validator.string ⟨1, some 3, some ['a', 'b']⟩)
        "name" ⟨[]⟩ (PyVal.str "abab")
      = Except.error (VErr.aboveUpper "len(name)" 3 4)
    ∧ Validator.set (fun _ _ => none) (Validator.string ⟨1, some 3, some ['a', 'b']⟩)
        "name" ⟨[]⟩ (PyVal.str "aXb")
      = Except.error (VErr.invalidCharacter "name" 'X') :=
  ⟨(C5_string_length_charset (fun _ _ => none) 1 3 ['a', 'b'] "name" "" ⟨[]⟩).2.1
     (by decide),
   (C5_string_length_charset (fun _ _ => none) 1 3 ['a', 'b'] "name" "abab"
     ⟨[]⟩).2.2.1 (by decide) (by decide),
   (C5_string_length_charset (fun _ _ => none) 1 3 ['a', 'b'] "name" "aXb"
     ⟨[]⟩).2.2.2 'X' (by decide) (by decide) (by decide)⟩

/-- A sample external parse function for concrete evaluations: recognises one
fixed date string under the first registry format only. -/
def sampleStrptime : String → String → Option Int :=
  fun s f =>
    if s == "13:14:25 15/11/2020" && f == "%H:%M:%S %d/%m/%Y" then some 100 else none

/-- C6: date parsing tries the configured formats in declared order and accepts
the first that parses; when none matches it fails with the format error
listing all attempted formats; the resolved datetime (parsed from a string or
given directly) is checked against the inclusive earliest/latest bounds,
failing with the range error on violation. -/
theorem C6_date_formats_bounds (p : String → String → Option Int) :
    (∀ (s : String) (d : Int) (fmt : String) (rest : List String),
        p s fmt = some d → str_to_datetime p s (fmt :: rest) = Except.ok d)
    ∧ (∀ (s : String) (d : Int) (fmt : String) (rest : List String),
        p s fmt = none → str_to_datetime p s rest = Except.ok d →
        str_to_datetime p s (fmt :: rest) = Except.ok d)
    ∧ (∀ (s : String) (fmts : List String), (∀ f ∈ fmts, p s f = none) →
        str_to_datetime p s fmts = Except.error (VErr.formatError s fmts))
    ∧ (∀ (fmts : List String) (eo lo : Option Int) (name s : String) (d : Int)
        (inst : PyObject), str_to_datetime p s fmts = Except.ok d →
        Validator.set p (Validator.date ⟨some fmts, eo, lo⟩) name inst (PyVal.str s)
          = (validate_bounds name d eo lo).map
              (fun _ => PyObject.mk (dictInsert inst.dict name (PyVal.datetime d))))
    ∧ (∀ (fo : Option (List String)) (eo lo : Option Int) (name : String) (d : Int)
        (inst : PyObject),
        Validator.set p (Validator.date ⟨fo, eo, lo⟩) name inst (PyVal.datetime d)
          = (validate_bounds name d eo lo).map
              (fun _ => PyObject.mk (dictInsert inst.dict name (PyVal.datetime d))))
    ∧ (∀ (name : String) (d e l : Int),
        validate_bounds name d (some e) (some l) = Except.ok () ↔ e ≤ d ∧ d ≤ l)
    ∧ (∀ (name : String) (d e : Int) (u : Option Int), d < e →
        validate_bounds name d (some e) u
          = Except.error (VErr.belowLower name e d))
    ∧ (∀ (name : String) (d e l : Int), e ≤ d → l < d →
        validate_bounds name d (some e) (some l)
          = Except.error (VErr.aboveUpper name l d)) := by
  refine ⟨?_, ?_, ?_, ?_, ?_, ?_, ?_, ?_⟩
  · intro s d fmt rest h
    simp [str_to_datetime, h]
  · intro s d fmt rest h1 h2
    simp [str_to_datetime, h1, h2]
  · exact str_to_datetime_all_fail p
  · intro fmts eo lo name s d inst h
    cases hb : validate_bounds name d eo lo with
    | ok u =>
        cases u
        have hval : Validator.validate p (Validator.date ⟨some fmts, eo, lo⟩) name
            (PyVal.str s) = Except.ok (PyVal.datetime d) := by
          rw [validate_date_str p fmts eo lo name s d h, hb]; rfl
        exact set_of_validate_ok p _ name inst _ _ hval
    | error e =>
        have hval : Validator.validate p (Validator.date ⟨some fmts, eo, lo⟩) name
            (PyVal.str s) = Except.error e := by
          rw [validate_date_str p fmts eo lo name s d h, hb]; rfl
        exact set_of_validate_error p _ name inst _ _ hval
  · intro fo eo lo name d inst
    cases hb : validate_bounds name d eo lo with
    | ok u =>
        cases u
        have hval : Validator.validate p (Validator.date ⟨fo, eo, lo⟩) name
            (PyVal.datetime d) = Except.ok (PyVal.datetime d) := by
          rw [validate_date_dt, hb]; rfl
        exact set_of_validate_ok p _ name inst _ _ hval
    | error e =>
        have hval : Validator.validate p (Validator.date ⟨fo, eo, lo⟩) name
            (PyVal.datetime d) = Except.error e := by
          rw [validate_date_dt, hb]; rfl
        exact set_of_validate_error p _ name inst _ _ hval
  · intro name d e l
    exact validate_bounds_ok_iff name d e l
  · intro name d e u h
    exact validate_bounds_low name d e u h
  · intro name d e l h1 h2
    exact validate_bounds_high name d e l h1 h2

/-- Witness for C6: the registry's first format parses the sample string to
datetime 100 (first-match order); an unparseable string fails with the format
error listing both registry formats; a parsed datetime above `latest = 50`
fails with the upper range error; a direct datetime inside the bounds is
stored. -/
theorem C6_witness :
    str_to_datetime sampleStrptime "13:14:25 15/11/2020" dateCreatedFormats
      = Except.ok 100
    ∧ str_to_datetime sampleStrptime "15-11-2020" dateCreatedFormats
      = Except.error (VErr.formatError "15-11-2020" dateCreatedFormats)
    ∧ Validator.set sampleStrptime
        (Validator.date ⟨some dateCreatedFormats, some 0, some 50⟩) "date_created"
        ⟨[]⟩ (PyVal.str "13:14:25 15/11/2020")
      = Except.error (VErr.aboveUpper "date_created" 50 100)
    ∧ Validator.set sampleStrptime
        (Validator.date ⟨some dateCreatedFormats, some 0, some 200⟩) "date_created"
        ⟨[]⟩ (PyVal.str "13:14:25 15/11/2020")
      = Except.ok ⟨[("date_created", PyVal.datetime 100)]⟩ :=
  ⟨(C6_date_formats_bounds sampleStrptime).1 "13:14:25 15/11/2020" 100
     "%H:%M:%S %d/%m/%Y" ["%Z %Y-%m-%d %H:%M:%S.%f"] rfl,
   (C6_date_formats_bounds sampleStrptime).2.2.1 "15-11-2020" dateCreatedFormats
     (by decide),
   by
     rw [(C6_date_formats_bounds sampleStrptime).2.2.2.1 dateCreatedFormats
       (some 0) (some 50) "date_created" "13:14:25 15/11/2020" 100 ⟨[]⟩ rfl]
     rfl,
   by
     rw [(C6_date_formats_bounds sampleStrptime).2.2.2.1 dateCreatedFormats
       (some 0) (some 200) "date_created" "13:14:25 15/11/2020" 100 ⟨[]⟩ rfl]
     rfl⟩

/-- C7: a successful assignment stores exactly the validated (normalized)
value under the bound name, and a read returns it unchanged; a read of a
never-assigned field returns `None`; in particular a date assigned as a
string is read back as the parsed datetime, not the original string. -/
theorem C7_get_returns_stored (p : String → String → Option Int) :
    (∀ (kind : Validator) (name : String) (inst : PyObject) (value v : PyVal),
        Validator.validate p kind name value = Except.ok v →
        Validator.set p kind name inst value
            = Except.ok ⟨dictInsert inst.dict name v⟩
          ∧ BaseValidator.get ⟨dictInsert inst.dict name v⟩ name = v)
    ∧ (∀ name : String, BaseValidator.get ⟨[]⟩ name = PyVal.none)
    ∧ (∀ (inst : PyObject) (name : String), inst.dict.lookup name = none →
        BaseValidator.get inst name = PyVal.none)
    ∧ (∀ (fmts : List String) (eo lo : Option Int) (name s : String) (d : Int)
        (inst inst2 : PyObject),
        str_to_datetime p s fmts = Except.ok d →
        Validator.set p (Validator.date ⟨some fmts, eo, lo⟩) name inst (PyVal.str s)
          = Except.ok inst2 →
        BaseValidator.get inst2 name = PyVal.datetime d) := by
  refine ⟨?_, ?_, ?_, ?_⟩
  · intro kind name inst value v h
    exact ⟨set_of_validate_ok p kind name inst value v h, get_dictInsert _ _ _⟩
  · intro name
    rfl
  · intro inst name h
    simp [BaseValidator.get, h]
  · intro fmts eo lo name s d inst inst2 hparse hset
    cases hb : validate_bounds name d eo lo with
    | error e =>
        have hval : Validator.validate p (Validator.date ⟨some fmts, eo, lo⟩) name
            (PyVal.str s) = Except.error e := by
          rw [validate_date_str p fmts eo lo name s d hparse, hb]; rfl
        rw [set_of_validate_error p _ name inst _ e hval] at hset
        exact absurd hset (by simp)
    | ok u =>
        cases u
        have hval : Validator.validate p (Validator.date ⟨some fmts, eo, lo⟩) name
            (PyVal.str s) = Except.ok (PyVal.datetime d) := by
          rw [validate_date_str p fmts eo lo name s d hparse, hb]; rfl
        rw [set_of_validate_ok p _ name inst _ _ hval] at hset
        cases hset
        exact get_dictInsert _ _ _

/-- Witness for C7: an in-range integer is read back unchanged; a
never-assigned field reads as `None`; a date string is read back as the
parsed datetime 100. -/
theorem C7_witness :
    BaseValidator.get ⟨[("duration", PyVal.int 3)]⟩ "duration" = PyVal.int 3
    ∧ BaseValidator.get ⟨[]⟩ "duration" = PyVal.none
    ∧ BaseValidator.get ⟨[("date_created", PyVal.datetime 100)]⟩ "date_created"
        = PyVal.datetime 100 :=
  ⟨((C7_get_returns_stored (fun _ _ => none)).1 (Validator.intv ⟨some 1, some 5⟩)
      "duration" ⟨[]⟩ (PyVal.int 3) (PyVal.int 3) rfl).2,
   (C7_get_returns_stored (fun _ _ => none)).2.1 "duration",
   (C7_get_returns_stored sampleStrptime).2.2.2 dateCreatedFormats none none
     "date_created" "13:14:25 15/11/2020" 100 ⟨[]⟩
     ⟨[("date_created", PyVal.datetime 100)]⟩ rfl rfl⟩

/-- C8: an assignment whose validation fails leaves the instance's field
storage unchanged — the observed object is the original one and every field
reads exactly as before. -/
theorem C8_failed_set_no_write (p : String → String → Option Int)
    (kind : Validator) (name : String) (inst : PyObject) (value : PyVal) (e : VErr)
    (h : Validator.set p kind name inst value = Except.error e) :
    Validator.trySet p kind name inst value = inst
    ∧ ∀ k, BaseValidator.get (Validator.trySet p kind name inst value) k
        = BaseValidator.get inst k := by
  constructor
  · simp [Validator.trySet, h]
  · intro k
    simp [Validator.trySet, h]

/-- Witness for C8: an out-of-range assignment to `duration` leaves a
previously populated object exactly as it was. -/
theorem C8_witness :
    Validator.trySet (fun _ _ => none) (Validator.intv ⟨some 1, some 5⟩) "duration"
        ⟨[("extension", PyVal.str "mp4")]⟩ (PyVal.int 9)
      = (⟨[("extension", PyVal.str "mp4")]⟩ : PyObject) :=
  (C8_failed_set_no_write (fun _ _ => none) (Validator.intv ⟨some 1, some 5⟩)
    "duration" ⟨[("extension", PyVal.str "mp4")]⟩ (PyVal.int 9)
    (VErr.aboveUpper "duration" 5 9) rfl).1

/-- C9: the population loop silently ignores entries whose built name does not
resolve to a declared member (unknown names raise `KeyError`, which is passed;
known-but-undeclared members are skipped); after all entries are processed,
every declared field is existence-checked: populate succeeds when all were
set, and fails with the missing-value error naming the first never-set
declared field otherwise. -/
theorem C9_populate_ignores_unknown_checks_completeness
    (p : String → String → Option Int) :
    (∀ (declared : List Metadata) (inst : PyObject) (e : MediaEntry),
        (∀ m, metadataLookup (pyLower e.track_type ++ "_" ++ e.property) = some m →
          m ∉ declared) →
        processEntry p declared inst e = Except.ok inst)
    ∧ (∀ (declared : List Metadata) (entries : List MediaEntry)
        (inst inst2 : PyObject),
        processEntries p declared entries inst = Except.ok inst2 →
        ((∀ m ∈ declared, BaseValidator.get inst2 m.value ≠ PyVal.none) →
            Media.read_file_metadata p declared entries inst = Except.ok inst2)
          ∧ (∀ m : Metadata,
              declared.find?
                  (fun m2 => decide (BaseValidator.get inst2 m2.value = PyVal.none))
                = some m →
              Media.read_file_metadata p declared entries inst
                = Except.error (VErr.missingValue m.pyStr))) := by
  constructor
  · intro declared inst e h
    cases hm : metadataLookup (pyLower e.track_type ++ "_" ++ e.property) with
    | none => simp [processEntry, hm]
    | some m => simp [processEntry, hm, h m hm]
  · intro declared entries inst inst2 hproc
    constructor
    · intro hall
      simp [Media.read_file_metadata, hproc, checkComplete_ok declared inst2 hall,
        Bind.bind, Except.bind, Pure.pure, Except.pure]
    · intro m hfind
      simp [Media.read_file_metadata, hproc,
        checkComplete_first_missing declared inst2 m hfind, Bind.bind, Except.bind]

/-- Witness for C9: an entry resolving to no declared member is ignored;
a source containing the declared `duration` populates it; an empty source
fails the completeness check naming the declared `file_name`. -/
theorem C9_witness :
    processEntry (fun _ _ => none) [Metadata.duration] ⟨[]⟩
        ⟨"General", "writing_library", PyVal.str "x"⟩ = Except.ok ⟨[]⟩
    ∧ Media.read_file_metadata (fun _ _ => none) [Metadata.duration]
        [⟨"General", "duration", PyVal.int 3⟩] ⟨[]⟩
        = Except.ok ⟨[("duration", PyVal.int 3)]⟩
    ∧ Media.read_file_metadata (fun _ _ => none) [Metadata.file_name] [] ⟨[]⟩
        = Except.error (VErr.missingValue "Metadata.file_name") :=
  ⟨(C9_populate_ignores_unknown_checks_completeness (fun _ _ => none)).1
     [Metadata.duration] ⟨[]⟩ ⟨"General", "writing_library", PyVal.str "x"⟩
     (by
       intro m hm
       have hnone : metadataLookup (pyLower "General" ++ "_" ++ "writing_library")
           = none := rfl
       rw [hnone] at hm
       exact Option.noConfusion hm),
   ((C9_populate_ignores_unknown_checks_completeness (fun _ _ => none)).2
     [Metadata.duration] [⟨"General", "duration", PyVal.int 3⟩] ⟨[]⟩
     ⟨[("duration", PyVal.int 3)]⟩ rfl).1 (by decide),
   ((C9_populate_ignores_unknown_checks_completeness (fun _ _ => none)).2
     [Metadata.file_name] [] ⟨[]⟩ ⟨[]⟩ rfl).2 Metadata.file_name rfl⟩
